import Mathlib

/-!
Shallow embedding of the firebird-matic SDK token entities
(`src/entities/token.ts`) and the on-chain data fetcher, together with proofs
of the specified properties.  Addresses are represented as lists of
characters; the asynchronous provider calls of the fetcher are represented by
their already-resolved outcomes, passed in as explicit arguments.
-/

/-- The chain enum referenced by `token.ts`.  Modelled from the spec:
`src/constants.ts` is not among the sources; only the distinctness of the
members used by the entities matters here. -/
inductive ChainId where
  | MATIC
  | MATICTESTNET
  | BSC
deriving DecidableEq, Repr

/-- JavaScript `toLowerCase` on a string represented as a list of characters. -/
def toLowerChars (s : List Char) : List Char := s.map Char.toLower

/-- Modelled from the spec: `validateAndParseAddress` (in `src/utils`, not
among the sources) validates an address and returns its canonical checksummed
form; the canonical form is determined by the case-insensitive address, and
case-insensitively distinct addresses stay distinct.  Canonicalization is
modelled as lowercasing, which has exactly these properties. -/
def validateAndParseAddress (s : List Char) : List Char := toLowerChars s

/-- `Token` from `src/entities/token.ts`: a chain id, the canonicalized
address, and the metadata inherited from `Currency`. -/
structure Token where
  chainId : ChainId
  address : List Char
  decimals : Nat
  symbol : Option String
  name : Option String
deriving DecidableEq, Repr

/-- The `Token` constructor: it stores `validateAndParseAddress(address)`. -/
def Token.mk' (chainId : ChainId) (address : List Char) (decimals : Nat)
    (symbol : Option String) (name : Option String) : Token :=
  ⟨chainId, validateAndParseAddress address, decimals, symbol, name⟩

/-- The field state every constructor-produced token satisfies: the stored
address is in canonical (here lowercase) form. -/
def Token.WF (t : Token) : Prop := t.address = toLowerChars t.address

/-- `Token.equals`: short circuit on reference equality, then compare chain id
and stored address.  Reference equality of two token objects implies equality
of all their fields, so the short circuit is modelled by structural equality. -/
def Token.equals (a b : Token) : Bool :=
  if a = b then true
  else decide (a.chainId = b.chainId) && decide (a.address = b.address)

/-- The `tiny-invariant` message tags raised by `token.ts` and the fetcher. -/
inductive InvariantError where
  | CHAIN_IDS
  | ADDRESSES
  | CHAIN_ID
deriving DecidableEq, Repr

/-- JavaScript `<` on strings: lexicographic comparison by code unit. -/
def ltChars : List Char → List Char → Bool
  | [], [] => false
  | [], _ :: _ => true
  | _ :: _, [] => false
  | a :: as, b :: bs =>
    if a < b then true
    else if b < a then false
    else ltChars as bs

/-- `Token.sortsBefore`: the two invariant checks, then comparison of the
lowercased addresses. -/
def Token.sortsBefore (a b : Token) : Except InvariantError Bool :=
  if a.chainId ≠ b.chainId then .error .CHAIN_IDS
  else if a.address = b.address then .error .ADDRESSES
  else .ok (ltChars (toLowerChars a.address) (toLowerChars b.address))

/-- A non-token `Currency` object.  `ref` is the object identity: two native
currency objects are `===` in JavaScript exactly when they are the same
object, which the embedding renders as equality of the whole value. -/
structure NativeCurrency where
  ref : Nat
  decimals : Nat
  symbol : Option String
  name : Option String
deriving DecidableEq, Repr

/-- A `Currency` is either a `Token` instance or a plain (native) currency. -/
inductive Currency where
  | native (n : NativeCurrency)
  | token (t : Token)
deriving DecidableEq, Repr

/-- The `instanceof Token` test used by `currencyEquals`. -/
def Currency.isToken : Currency → Bool
  | .token _ => true
  | .native _ => false

/-- `currencyEquals` from `token.ts`: token/token via `Token.equals`, a token
never equals a non-token, and two non-tokens compare by reference identity. -/
def currencyEquals : Currency → Currency → Bool
  | .token a, .token b => a.equals b
  | .token _, .native _ => false
  | .native _, .token _ => false
  | .native a, .native b => decide (a = b)

/-- The exported `WMATIC` table keyed by chain id. -/
def WMATIC : ChainId → Option Token
  | .MATIC =>
    some (Token.mk' .MATIC (("0x0d500b1d8e8ef31e21c99d1db9a6444d3adf1270").toList)
      18 (some ("WMATIC")) (some ("Wrapped MATIC")))
  | .MATICTESTNET =>
    some (Token.mk' .MATICTESTNET (("0x9c3C9283D3e44854697Cd22D3Faa240Cfb032889").toList)
      18 (some ("WMATIC")) (some ("Wrapped MATIC")))
  | .BSC => none

/-- The exported `WETH` table keyed by chain id. -/
def WETH : ChainId → Option Token
  | .MATIC =>
    some (Token.mk' .MATIC (("0x7ceB23fD6bC0adD59E62ac25578270cFf1b9f619").toList)
      18 (some ("WETH")) (some ("Wrapped ETH")))
  | _ => none

/-- The exported `BNB` table keyed by chain id. -/
def BNB : ChainId → Option Token
  | .BSC =>
    some (Token.mk' .BSC (("0xbb4CdB9CBd36B01bD1cBaEBF2De08d9173bc095c").toList)
      18 (some ("WBNB")) (some ("Wrapped BNB")))
  | _ => none

/-- The exported `HOPE` table keyed by chain id.  Note that the entry under the
`BSC` key is constructed with chain id `MATIC`, exactly as in the source. -/
def HOPE : ChainId → Option Token
  | .MATIC =>
    some (Token.mk' .MATIC (("0xd78c475133731cd54dadcb430f7aae4f03c1e660").toList)
      18 (some ("HOPE")) (some ("Firebird HOPE")))
  | .BSC =>
    some (Token.mk' .MATIC (("0xd78C475133731CD54daDCb430F7aAE4F03C1E660").toList)
      18 (some ("HOPE-P")) (some ("Firebird HOPE-P")))
  | .MATICTESTNET => none

/-- The static decimals override table `TOKEN_DECIMALS_CACHE`, rendered as an
association list from (chain id, address) to decimals; insertions cons a new
entry on the front, which shadows older entries exactly like the
object-spread update in the source. -/
def TOKEN_DECIMALS_CACHE : List (ChainId × List Char × Nat) :=
  [(ChainId.MATIC, ("0xE0B7927c4aF23765Cb51314A0E0521A9645F0E2A").toList, 9)]

/-- Lookup `cache[chainId]?.[address]`. -/
def cacheLookup (cache : List (ChainId × List Char × Nat)) (chainId : ChainId)
    (address : List Char) : Option Nat :=
  (cache.find? (fun e => decide (e.1 = chainId) && decide (e.2.1 = address))).map
    (fun e => e.2.2)

/-- The object-spread update of `TOKEN_DECIMALS_CACHE` performed after a live
`decimals()` lookup. -/
def cacheInsert (cache : List (ChainId × List Char × Nat)) (chainId : ChainId)
    (address : List Char) (decimals : Nat) : List (ChainId × List Char × Nat) :=
  (chainId, address, decimals) :: cache

/-- `Fetcher.fetchTokenData`: consult the override table first; only on a miss
run the live `decimals()` contract call — modelled by its already-resolved
outcome `lookupDecimals` — and record the fetched value in the table. -/
def Fetcher.fetchTokenData (cache : List (ChainId × List Char × Nat))
    (chainId : ChainId) (address : List Char) (lookupDecimals : Except Unit Nat)
    (symbol : Option String) (name : Option String) :
    Except Unit (Token × List (ChainId × List Char × Nat)) :=
  match cacheLookup cache chainId address with
  | some d => .ok (Token.mk' chainId address d symbol name, cache)
  | none =>
    match lookupDecimals with
    | .ok d =>
      .ok (Token.mk' chainId address d symbol name, cacheInsert cache chainId address d)
    | .error e => .error e

/-- Modelled from the spec: `TokenAmount`
(`entities/fractions/tokenAmount.ts`, not among the sources) binds a raw
integer quantity to a token. -/
structure TokenAmount where
  token : Token
  raw : Nat
deriving DecidableEq, Repr

/-- Modelled from the spec: a pair holds two token amounts, always stored
sorted by the token order. -/
structure Pair where
  tokenAmount0 : TokenAmount
  tokenAmount1 : TokenAmount
deriving DecidableEq, Repr

/-- Modelled from the spec: the `Pair` constructor stores the two amounts
sorted by token order (comparison of lowercased addresses). -/
def Pair.mk' (ta tb : TokenAmount) : Pair :=
  if ltChars (toLowerChars ta.token.address) (toLowerChars tb.token.address)
  then ⟨ta, tb⟩ else ⟨tb, ta⟩

/-- The raw reserve a pair holds for a given token, if any, located with
`Token.equals`. -/
def Pair.reserveOf (p : Pair) (t : Token) : Option Nat :=
  if p.tokenAmount0.token.equals t then some p.tokenAmount0.raw
  else if p.tokenAmount1.token.equals t then some p.tokenAmount1.raw
  else none

/-- A pool identity.  Modelled from the spec: `computePoolAddress` is a
deterministic derivation from the sorted asset identifiers plus weight and
fee; the embedding keeps the derivation's inputs instead of hashing them. -/
structure PoolAddress where
  token0 : List Char
  token1 : List Char
  ratioA : Nat
  swapFee : Nat
deriving DecidableEq, Repr

/-- Modelled from the spec: `Pair.getAddress` derives the pool identity from
the two token addresses in sorted order together with `ratioA` and
`swapFee`. -/
def Pair.getAddress (tokenA tokenB : Token) (ratioA swapFee : Nat) : PoolAddress :=
  if ltChars (toLowerChars tokenA.address) (toLowerChars tokenB.address)
  then ⟨tokenA.address, tokenB.address, ratioA, swapFee⟩
  else ⟨tokenB.address, tokenA.address, ratioA, swapFee⟩

/-- Errors surfaced by `fetchPairData`: a failed invariant, or the descriptive
reserve-lookup error whose message interpolates the attempted pool address and
the `ratioA` and `swapFee` parameters (the interpolated values are kept
structurally). -/
inductive FetchError where
  | invariantFail (e : InvariantError)
  | couldNotGetReserves (address : PoolAddress) (ratioA : Nat) (swapFee : Nat)
deriving DecidableEq, Repr

/-- `Fetcher.fetchPairData`: the chain invariant, the pool address derivation,
the reserve lookup — modelled by its already-resolved outcome `getReserves` —
with its descriptive error on failure, and the sorted assignment of the two
fetched reserves onto the two tokens. -/
def Fetcher.fetchPairData (tokenA tokenB : Token)
    (getReserves : PoolAddress → Except Unit (Nat × Nat))
    (ratioA : Nat) (swapFee : Nat) : Except FetchError Pair :=
  if tokenA.chainId ≠ tokenB.chainId then .error (.invariantFail .CHAIN_ID)
  else
    let address := Pair.getAddress tokenA tokenB ratioA swapFee
    match getReserves address with
    | .error _ => .error (.couldNotGetReserves address ratioA swapFee)
    | .ok (reserves0, reserves1) =>
      match tokenA.sortsBefore tokenB with
      | .error e => .error (.invariantFail e)
      | .ok sortsFirst =>
        let balances := if sortsFirst then (reserves0, reserves1) else (reserves1, reserves0)
        .ok (Pair.mk' ⟨tokenA, balances.1⟩ ⟨tokenB, balances.2⟩)

theorem char_toLower_def (c : Char) :
    c.toLower = if c.toNat ≥ 65 ∧ c.toNat ≤ 90 then Char.ofNat (c.toNat + 32) else c := rfl

theorem char_toNat_ofNat {n : Nat} (h : n.isValidChar) : (Char.ofNat n).toNat = n := by
  rw [Char.ofNat, dif_pos h]
  rfl

theorem char_toLower_idem (c : Char) : c.toLower.toLower = c.toLower := by
  by_cases h : c.toNat ≥ 65 ∧ c.toNat ≤ 90
  · have hv : (c.toNat + 32).isValidChar := Or.inl (by omega)
    have h2 : c.toLower.toNat = c.toNat + 32 := by
      rw [char_toLower_def, if_pos h]
      exact char_toNat_ofNat hv
    rw [char_toLower_def c.toLower, if_neg (by omega)]
  · have h1 : c.toLower = c := by rw [char_toLower_def, if_neg h]
    rw [h1]
    exact h1

theorem toLowerChars_idem (s : List Char) :
    toLowerChars (toLowerChars s) = toLowerChars s := by
  induction s with
  | nil => rfl
  | cons c cs ih =>
    simpa [toLowerChars, char_toLower_idem c] using ih

theorem Token.mk'_WF (c : ChainId) (a : List Char) (d : Nat)
    (s n : Option String) : (Token.mk' c a d s n).WF := by
  simp [Token.mk', Token.WF, validateAndParseAddress, toLowerChars_idem]

theorem ltChars_flip : ∀ (xs ys : List Char), xs ≠ ys → ltChars xs ys = !ltChars ys xs
  | [], [], h => absurd rfl h
  | [], _ :: _, _ => rfl
  | _ :: _, [], _ => rfl
  | a :: as, b :: bs, h => by
    rcases lt_trichotomy a b with hab | hab | hab
    · simp [ltChars, hab, lt_asymm hab]
    · subst hab
      have hne : as ≠ bs := fun hh => h (by rw [hh])
      simp [ltChars, ltChars_flip as bs hne]
    · simp [ltChars, hab, lt_asymm hab]

theorem token_equals_refl (a : Token) : a.equals a = true := by
  simp [Token.equals]

theorem token_equals_symm (a b : Token) : a.equals b = b.equals a := by
  unfold Token.equals
  by_cases hab : a = b
  · subst hab
    rfl
  · rw [if_neg hab, if_neg (Ne.symm hab)]
    congr 1
    · rw [decide_eq_decide]
      exact eq_comm
    · rw [decide_eq_decide]
      exact eq_comm

theorem token_equals_false_of_address_ne (a b : Token)
    (h : a.address ≠ b.address) : a.equals b = false := by
  have hab : a ≠ b := fun hh => h (by rw [hh])
  simp [Token.equals, hab, h]

/-- Claim C1: for every pair of `Token` values `a` and `b` (tokens carry the
canonical address the constructor stores, expressed by `Token.WF`),
`a.equals b` returns `true` if and only if `a.chainId = b.chainId` and the
addresses of `a` and `b` agree case-insensitively. -/
theorem token_equals_iff (a b : Token) (ha : a.WF) (hb : b.WF) :
    a.equals b = true ↔
      a.chainId = b.chainId ∧ toLowerChars a.address = toLowerChars b.address := by
  unfold Token.equals
  by_cases hab : a = b
  · simp [hab]
  · simp only [if_neg hab, Bool.and_eq_true, decide_eq_true_eq]
    constructor
    · rintro ⟨h1, h2⟩
      exact ⟨h1, by rw [h2]⟩
    · rintro ⟨h1, h2⟩
      refine ⟨h1, ?_⟩
      rw [Token.WF] at ha hb
      rw [ha, hb]
      exact h2

theorem token_equals_iff_witness :
    (Token.mk' ChainId.MATIC (("0xAb").toList) 18 none none).equals
        (Token.mk' ChainId.MATIC (("0xaB").toList) 18 none none) = true :=
  (token_equals_iff _ _ (Token.mk'_WF _ _ _ _ _) (Token.mk'_WF _ _ _ _ _)).mpr
    (by decide)

/-- Claim C3: for every two distinct same-chain tokens `a` and `b` (canonical
addresses, addresses unequal), `sortsBefore a b` succeeds with the negation of
what `sortsBefore b a` succeeds with. -/
theorem sortsBefore_antisymm (a b : Token) (ha : a.WF) (hb : b.WF)
    (hc : a.chainId = b.chainId) (hne : a.address ≠ b.address) :
    ∃ r : Bool, a.sortsBefore b = .ok r ∧ b.sortsBefore a = .ok (!r) := by
  have hlow : toLowerChars b.address ≠ toLowerChars a.address := by
    intro hh
    apply hne
    rw [Token.WF] at ha hb
    rw [ha, hb]
    exact hh.symm
  refine ⟨ltChars (toLowerChars a.address) (toLowerChars b.address), ?_, ?_⟩
  · simp [Token.sortsBefore, hc, hne]
  · simp [Token.sortsBefore, hc.symm, Ne.symm hne, ltChars_flip _ _ hlow]

theorem sortsBefore_antisymm_witness :
    ∃ r : Bool,
      (Token.mk' ChainId.MATIC (("0xAa").toList) 18 none none).sortsBefore
          (Token.mk' ChainId.MATIC (("0xBb").toList) 18 none none) = .ok r ∧
      (Token.mk' ChainId.MATIC (("0xBb").toList) 18 none none).sortsBefore
          (Token.mk' ChainId.MATIC (("0xAa").toList) 18 none none) = .ok (!r) :=
  sortsBefore_antisymm _ _ (Token.mk'_WF _ _ _ _ _) (Token.mk'_WF _ _ _ _ _)
    (by decide) (by decide)

/-- Claim C4: `sortsBefore a b` fails with the `CHAIN_IDS` invariant when the
chain ids differ, fails with the `ADDRESSES` invariant when the stored
addresses coincide, and otherwise returns whether the lowercased address of
`a` is less than the lowercased address of `b`. -/
theorem sortsBefore_spec (a b : Token) :
    (a.chainId ≠ b.chainId → a.sortsBefore b = .error .CHAIN_IDS) ∧
    (a.chainId = b.chainId → a.address = b.address →
        a.sortsBefore b = .error .ADDRESSES) ∧
    (a.chainId = b.chainId → a.address ≠ b.address →
        a.sortsBefore b =
          .ok (ltChars (toLowerChars a.address) (toLowerChars b.address))) := by
  refine ⟨fun h => ?_, fun h1 h2 => ?_, fun h1 h2 => ?_⟩
  · simp [Token.sortsBefore, h]
  · simp [Token.sortsBefore, h1, h2]
  · simp [Token.sortsBefore, h1, h2]

theorem sortsBefore_spec_witness :
    ((Token.mk' ChainId.MATIC (("0xAa").toList) 18 none none).sortsBefore
        (Token.mk' ChainId.BSC (("0xBb").toList) 18 none none)
      = .error .CHAIN_IDS) ∧
    ((Token.mk' ChainId.MATIC (("0xAa").toList) 18 none none).sortsBefore
        (Token.mk' ChainId.MATIC (("0xaA").toList) 9 none none)
      = .error .ADDRESSES) ∧
    ((Token.mk' ChainId.MATIC (("0xAa").toList) 18 none none).sortsBefore
        (Token.mk' ChainId.MATIC (("0xBb").toList) 18 none none)
      = .ok true) :=
  ⟨(sortsBefore_spec _ _).1 (by decide),
   (sortsBefore_spec _ _).2.1 (by decide) (by decide),
   by
    rw [(sortsBefore_spec _ _).2.2 (by decide) (by decide)]
    rfl⟩

/-- Claim C8: `currencyEquals a b` is `false` whenever exactly one of the two
currencies is a token, and when neither is a token it is `true` exactly when
`a` and `b` are the same (native-currency reference identity). -/
theorem currencyEquals_kinds (a b : Currency) :
    (a.isToken = true → b.isToken = false → currencyEquals a b = false) ∧
    (a.isToken = false → b.isToken = true → currencyEquals a b = false) ∧
    (a.isToken = false → b.isToken = false →
      (currencyEquals a b = true ↔ a = b)) := by
  cases a <;> cases b <;> simp [currencyEquals, Currency.isToken]

theorem currencyEquals_kinds_witness :
    currencyEquals
        (Currency.token (Token.mk' ChainId.MATIC (("0xAa").toList) 18 none none))
        (Currency.native ⟨0, 18, none, none⟩) = false ∧
    currencyEquals (Currency.native ⟨0, 18, none, none⟩)
        (Currency.token (Token.mk' ChainId.MATIC (("0xAa").toList) 18 none none))
      = false ∧
    (currencyEquals (Currency.native ⟨0, 18, none, none⟩)
          (Currency.native ⟨1, 18, none, none⟩) = true ↔
      (Currency.native ⟨0, 18, none, none⟩ : Currency)
        = Currency.native ⟨1, 18, none, none⟩) :=
  ⟨(currencyEquals_kinds _ _).1 (by decide) (by decide),
   (currencyEquals_kinds _ _).2.1 (by decide) (by decide),
   (currencyEquals_kinds _ _).2.2 (by decide) (by decide)⟩

/-- Claim C9: `currencyEquals` is reflexive and symmetric. -/
theorem currencyEquals_refl_symm :
    (∀ a : Currency, currencyEquals a a = true) ∧
    (∀ a b : Currency, currencyEquals a b = currencyEquals b a) := by
  constructor
  · intro a
    cases a with
    | native n => simp [currencyEquals]
    | token t => simp [currencyEquals, token_equals_refl]
  · intro a b
    cases a with
    | native n1 =>
      cases b with
      | native n2 =>
        simp only [currencyEquals]
        rw [decide_eq_decide]
        exact eq_comm
      | token t => rfl
    | token t1 =>
      cases b with
      | native n2 => rfl
      | token t2 => exact token_equals_symm t1 t2

/-- Claim C10: in the exported token tables, every token stored under a chain
id key has that chain id for `WMATIC`, `WETH` and `BNB`, but the `HOPE` entry
stored under the `BSC` key is constructed with chain id `MATIC`, so its chain
id does not match its registry key. -/
theorem token_tables_chainId :
    ((WMATIC ChainId.MATIC).map Token.chainId = some ChainId.MATIC) ∧
    ((WMATIC ChainId.MATICTESTNET).map Token.chainId = some ChainId.MATICTESTNET) ∧
    (WMATIC ChainId.BSC = none) ∧
    ((WETH ChainId.MATIC).map Token.chainId = some ChainId.MATIC) ∧
    (WETH ChainId.MATICTESTNET = none) ∧
    (WETH ChainId.BSC = none) ∧
    ((BNB ChainId.BSC).map Token.chainId = some ChainId.BSC) ∧
    (BNB ChainId.MATIC = none) ∧
    (BNB ChainId.MATICTESTNET = none) ∧
    ((HOPE ChainId.MATIC).map Token.chainId = some ChainId.MATIC) ∧
    ((HOPE ChainId.BSC).map Token.chainId = some ChainId.MATIC) ∧
    ChainId.MATIC ≠ ChainId.BSC := by
  decide

/-- Claim C5: for tokens on different chains, `fetchPairData` fails with the
chain-mismatch invariant, and it does so for every possible reserve-lookup
outcome — i.e. before any reserve lookup is consulted. -/
theorem fetchPairData_chain_mismatch (a b : Token) (h : a.chainId ≠ b.chainId) :
    ∀ (getReserves : PoolAddress → Except Unit (Nat × Nat)) (ratioA swapFee : Nat),
      Fetcher.fetchPairData a b getReserves ratioA swapFee
        = .error (.invariantFail .CHAIN_ID) := by
  intro getReserves ratioA swapFee
  simp [Fetcher.fetchPairData, h]

theorem fetchPairData_chain_mismatch_witness :
    Fetcher.fetchPairData
        (Token.mk' ChainId.MATIC (("0xAa").toList) 18 none none)
        (Token.mk' ChainId.BSC (("0xBb").toList) 18 none none)
        (fun _ => .ok (1, 2)) 50 20
      = .error (.invariantFail .CHAIN_ID) :=
  fetchPairData_chain_mismatch _ _ (by decide) _ _ _

/-- Claim C6: whenever the reserve lookup inside `fetchPairData` fails, the
error raised to the caller carries the computed pool address, the `ratioA`
value and the `swapFee` value that were used. -/
theorem fetchPairData_reserve_error (a b : Token)
    (getReserves : PoolAddress → Except Unit (Nat × Nat)) (ratioA swapFee : Nat)
    (hc : a.chainId = b.chainId)
    (hg : getReserves (Pair.getAddress a b ratioA swapFee) = .error ()) :
    Fetcher.fetchPairData a b getReserves ratioA swapFee
      = .error (.couldNotGetReserves (Pair.getAddress a b ratioA swapFee)
          ratioA swapFee) := by
  simp [Fetcher.fetchPairData, hc, hg]

theorem fetchPairData_reserve_error_witness :
    Fetcher.fetchPairData
        (Token.mk' ChainId.MATIC (("0xAa").toList) 18 none none)
        (Token.mk' ChainId.MATIC (("0xBb").toList) 18 none none)
        (fun _ => .error ()) 30 25
      = .error (.couldNotGetReserves
          (Pair.getAddress
            (Token.mk' ChainId.MATIC (("0xAa").toList) 18 none none)
            (Token.mk' ChainId.MATIC (("0xBb").toList) 18 none none) 30 25)
          30 25) :=
  fetchPairData_reserve_error _ _ _ _ _ (by decide) rfl

/-- Claim C7: a (chainId, address) pair with an entry in the static decimals
override table makes `fetchTokenData` return a token carrying exactly that
decimals value, with the same result for every live-lookup outcome (so no
live lookup is consulted); only on a table miss is the live lookup used, its
value stored in the returned token and recorded in the table, and its failure
propagated. -/
theorem fetchTokenData_cache_spec (chainId : ChainId) (address : List Char)
    (sym nm : Option String) :
    (∀ d : Nat, cacheLookup TOKEN_DECIMALS_CACHE chainId address = some d →
      ∀ live : Except Unit Nat,
        Fetcher.fetchTokenData TOKEN_DECIMALS_CACHE chainId address live sym nm
          = .ok (Token.mk' chainId address d sym nm, TOKEN_DECIMALS_CACHE) ∧
        (Token.mk' chainId address d sym nm).decimals = d) ∧
    (cacheLookup TOKEN_DECIMALS_CACHE chainId address = none →
      (∀ d : Nat,
        Fetcher.fetchTokenData TOKEN_DECIMALS_CACHE chainId address (.ok d) sym nm
          = .ok (Token.mk' chainId address d sym nm,
              cacheInsert TOKEN_DECIMALS_CACHE chainId address d)) ∧
      Fetcher.fetchTokenData TOKEN_DECIMALS_CACHE chainId address
          (.error ()) sym nm
        = .error ()) := by
  constructor
  · intro d h live
    constructor
    · simp [Fetcher.fetchTokenData, h]
    · rfl
  · intro h
    constructor
    · intro d
      simp [Fetcher.fetchTokenData, h]
    · simp [Fetcher.fetchTokenData, h]

theorem fetchTokenData_cache_spec_witness :
    (Fetcher.fetchTokenData TOKEN_DECIMALS_CACHE ChainId.MATIC
        (("0xE0B7927c4aF23765Cb51314A0E0521A9645F0E2A").toList) (.error ())
        none none
      = .ok (Token.mk' ChainId.MATIC
            (("0xE0B7927c4aF23765Cb51314A0E0521A9645F0E2A").toList) 9 none none,
          TOKEN_DECIMALS_CACHE) ∧
      (Token.mk' ChainId.MATIC
          (("0xE0B7927c4aF23765Cb51314A0E0521A9645F0E2A").toList) 9 none none).decimals
        = 9) ∧
    Fetcher.fetchTokenData TOKEN_DECIMALS_CACHE ChainId.BSC
        (("0xAa").toList) (.ok 7) none none
      = .ok (Token.mk' ChainId.BSC (("0xAa").toList) 7 none none,
          cacheInsert TOKEN_DECIMALS_CACHE ChainId.BSC (("0xAa").toList) 7) :=
  ⟨(fetchTokenData_cache_spec _ _ _ _).1 9 (by decide) (.error ()),
   ((fetchTokenData_cache_spec _ _ _ _).2 (by decide)).1 7⟩

theorem getAddress_symm (a b : Token)
    (hlow : toLowerChars a.address ≠ toLowerChars b.address)
    (ratioA swapFee : Nat) :
    Pair.getAddress b a ratioA swapFee = Pair.getAddress a b ratioA swapFee := by
  unfold Pair.getAddress
  rw [ltChars_flip _ _ (Ne.symm hlow)]
  cases hlt : ltChars (toLowerChars a.address) (toLowerChars b.address) <;> simp

/-- Claim C2: for distinct same-chain tokens and a fetched reserve pair
`(r0, r1)`, `fetchPairData` assigns `r0` to whichever token sorts first and
`r1` to the other, and the calls `(a, b)` and `(b, a)` (at the default pool
parameters) produce the very same pair, so each token is associated with the
same reserve value regardless of argument order. -/
theorem fetchPairData_order_independent (a b : Token)
    (getReserves : PoolAddress → Except Unit (Nat × Nat)) (r0 r1 : Nat)
    (ha : a.WF) (hb : b.WF) (hc : a.chainId = b.chainId)
    (hne : a.address ≠ b.address)
    (hg : getReserves (Pair.getAddress a b 50 20) = .ok (r0, r1)) :
    ∃ p : Pair,
      Fetcher.fetchPairData a b getReserves 50 20 = .ok p ∧
      Fetcher.fetchPairData b a getReserves 50 20 = .ok p ∧
      (a.sortsBefore b = .ok true →
        p.reserveOf a = some r0 ∧ p.reserveOf b = some r1) ∧
      (a.sortsBefore b = .ok false →
        p.reserveOf a = some r1 ∧ p.reserveOf b = some r0) := by
  have hlow : toLowerChars a.address ≠ toLowerChars b.address := by
    intro hh
    apply hne
    rw [Token.WF] at ha hb
    rw [ha, hb]
    exact hh
  have haddr : Pair.getAddress b a 50 20 = Pair.getAddress a b 50 20 :=
    getAddress_symm a b hlow 50 20
  have hsab : a.sortsBefore b
      = .ok (ltChars (toLowerChars a.address) (toLowerChars b.address)) := by
    simp [Token.sortsBefore, hc, hne]
  have hsba : b.sortsBefore a
      = .ok (!ltChars (toLowerChars a.address) (toLowerChars b.address)) := by
    simp [Token.sortsBefore, hc.symm, Ne.symm hne,
      ltChars_flip _ _ (Ne.symm hlow)]
  have heqa : a.equals a = true := token_equals_refl a
  have heqb : b.equals b = true := token_equals_refl b
  have heab : a.equals b = false := token_equals_false_of_address_ne a b hne
  have heba : b.equals a = false :=
    token_equals_false_of_address_ne b a (Ne.symm hne)
  cases hlt : ltChars (toLowerChars a.address) (toLowerChars b.address) with
  | true =>
    refine ⟨⟨⟨a, r0⟩, ⟨b, r1⟩⟩, ?_, ?_, ?_, ?_⟩
    · simp [Fetcher.fetchPairData, hc, hg, hsab, hlt, Pair.mk']
    · simp [Fetcher.fetchPairData, hc, haddr, hg, hsba, hlt, Pair.mk',
        ltChars_flip _ _ (Ne.symm hlow)]
    · intro _
      constructor
      · simp [Pair.reserveOf, heqa]
      · simp [Pair.reserveOf, heab, heqb]
    · intro h
      rw [hsab, hlt] at h
      simp at h
  | false =>
    refine ⟨⟨⟨b, r0⟩, ⟨a, r1⟩⟩, ?_, ?_, ?_, ?_⟩
    · simp [Fetcher.fetchPairData, hc, hg, hsab, hlt, Pair.mk']
    · simp [Fetcher.fetchPairData, hc, haddr, hg, hsba, hlt, Pair.mk',
        ltChars_flip _ _ (Ne.symm hlow)]
    · intro h
      rw [hsab, hlt] at h
      simp at h
    · intro _
      constructor
      · simp [Pair.reserveOf, heba, heqa]
      · simp [Pair.reserveOf, heqb]

theorem fetchPairData_order_independent_witness :
    ∃ p : Pair,
      Fetcher.fetchPairData
          (Token.mk' ChainId.MATIC (("0xAa").toList) 18 none none)
          (Token.mk' ChainId.MATIC (("0xBb").toList) 18 none none)
          (fun _ => .ok (3, 4)) 50 20 = .ok p ∧
      Fetcher.fetchPairData
          (Token.mk' ChainId.MATIC (("0xBb").toList) 18 none none)
          (Token.mk' ChainId.MATIC (("0xAa").toList) 18 none none)
          (fun _ => .ok (3, 4)) 50 20 = .ok p ∧
      ((Token.mk' ChainId.MATIC (("0xAa").toList) 18 none none).sortsBefore
          (Token.mk' ChainId.MATIC (("0xBb").toList) 18 none none) = .ok true →
        p.reserveOf (Token.mk' ChainId.MATIC (("0xAa").toList) 18 none none)
            = some 3 ∧
          p.reserveOf (Token.mk' ChainId.MATIC (("0xBb").toList) 18 none none)
            = some 4) ∧
      ((Token.mk' ChainId.MATIC (("0xAa").toList) 18 none none).sortsBefore
          (Token.mk' ChainId.MATIC (("0xBb").toList) 18 none none) = .ok false →
        p.reserveOf (Token.mk' ChainId.MATIC (("0xAa").toList) 18 none none)
            = some 4 ∧
          p.reserveOf (Token.mk' ChainId.MATIC (("0xBb").toList) 18 none none)
            = some 3) :=
  fetchPairData_order_independent _ _ _ 3 4 (Token.mk'_WF _ _ _ _ _)
    (Token.mk'_WF _ _ _ _ _) (by decide) (by decide) rfl
